import Mathlib

/-!
Shallow embedding of the ledger engine of the `dodo` repository
(`src/handlers/transaction.rs`, `src/models/transaction.rs`).

Modelling choices:
- `BigDecimal` amounts are modelled by `Rat` (exact arbitrary-precision
  arithmetic, as the source requires).
- `Uuid` identifiers and `OffsetDateTime` timestamps are modelled by `Nat`;
  the store assigns `created_at` from a strictly increasing clock
  (server-assigned, monotonic per store).
- The Postgres store is modelled by an explicit `Store` state: the `users`
  table (only its ids matter to the ledger engine) and the `transactions`
  table as a list in insertion order.  The SQL of each handler is translated
  row-by-row: `EXISTS`, `INSERT ... RETURNING`, `SELECT ... ORDER BY
  created_at DESC`, and the aggregate `GROUP BY` query with its
  `CASE`/`SUM`/`COALESCE`/`MAX` (SQL NULL is `Option`).
- The store itself is modelled as available: I/O failures (mapped by the
  handlers to 500 responses) come from the environment, not from the code
  under study, so every store primitive succeeds.  Handler results are
  `Except Err _` where `Err` carries the HTTP status code and message the
  handler builds.
-/

namespace Dodo

/-- Model of `TransactionType` from `src/models/transaction.rs`: a closed enum,
stored as the database enum `transaction_type` with lowercase renaming. -/
inductive TransactionType where
  | credit
  | debit
deriving DecidableEq, Repr

/-- Model of `Transaction` from `src/models/transaction.rs`: one persisted row of the
`transactions` table. -/
structure Transaction where
  id : Nat
  user_id : Nat
  amount : Rat
  transaction_type : TransactionType
  description : Option String
  created_at : Nat
deriving DecidableEq, Repr

/-- Model of `CreateTransaction` from `src/models/transaction.rs`: the request body
of the write path. -/
structure CreateTransaction where
  amount : Rat
  transaction_type : TransactionType
  description : Option String
deriving DecidableEq, Repr

/-- Model of `AccountBalance` from `src/models/transaction.rs`: the response of the
balance read path; `last_updated` is declared optional. -/
structure AccountBalance where
  user_id : Nat
  balance : Rat
  last_updated : Option Nat
deriving DecidableEq, Repr

/-- An error response `(StatusCode, String)` as built by the handlers. -/
structure Err where
  status : Nat
  message : String
deriving DecidableEq, Repr

/-- The relational store: the `users` table (ids only) and the
`transactions` table in insertion order, plus the id / timestamp
generators. -/
structure Store where
  users : List Nat
  transactions : List Transaction
  next_id : Nat
  clock : Nat
deriving Repr

/-- Model of `SELECT EXISTS(SELECT 1 FROM users WHERE id = $1)`. -/
def userExists (s : Store) (uid : Nat) : Bool :=
  s.users.contains uid

/-- Model of `SELECT ... FROM transactions WHERE user_id = $1` (unordered row set). -/
def rowsFor (s : Store) (uid : Nat) : List Transaction :=
  s.transactions.filter (fun t => t.user_id == uid)

/-- Model of `INSERT INTO transactions (user_id, amount, transaction_type,
description) VALUES ($1,$2,$3,$4) RETURNING ...`: the store assigns `id`
and `created_at` and appends the row. -/
def insertTransaction (s : Store) (uid : Nat) (p : CreateTransaction) :
    Store × Transaction :=
  let t : Transaction :=
    { id := s.next_id
      user_id := uid
      amount := p.amount
      transaction_type := p.transaction_type
      description := p.description
      created_at := s.clock }
  ({ s with
      transactions := s.transactions ++ [t]
      next_id := s.next_id + 1
      clock := s.clock + 1 }, t)

/-- Handler `create_transaction` from `src/handlers/transaction.rs` (lines 13-68):
check user existence, then atomically insert and return the persisted row.
No validation of the payload is performed by the handler. -/
def create_transaction (s : Store) (uid : Nat) (p : CreateTransaction) :
    Except Err (Store × Transaction) :=
  if userExists s uid then
    let st := insertTransaction s uid p
    .ok st
  else
    .error ⟨404, "User not found"⟩

/-- Handler `get_transactions` from `src/handlers/transaction.rs` (lines 70-95):
`SELECT ... WHERE user_id = $1 ORDER BY created_at DESC`. -/
def get_transactions (s : Store) (uid : Nat) :
    Except Err (List Transaction) :=
  .ok ((rowsFor s uid).mergeSort
    (fun a b => decide (b.created_at ≤ a.created_at)))

/-- The `CASE WHEN transaction_type = 'credit' THEN amount WHEN
transaction_type = 'debit' THEN -amount END` expression: no `ELSE` branch,
so SQL NULL (`none`) for any other value — but the enum is closed. -/
def caseSigned (t : Transaction) : Option Rat :=
  match t.transaction_type with
  | .credit => some t.amount
  | .debit => some (-t.amount)

/-- SQL `SUM` over a column of nullable values: NULLs are ignored and the
result is NULL when no non-NULL value remains. -/
def sqlSum (xs : List (Option Rat)) : Option Rat :=
  match xs.filterMap id with
  | [] => none
  | vs => some vs.sum

/-- SQL `MAX` over a (non-nullable) column: NULL on an empty group. -/
def sqlMax : List Nat → Option Nat
  | [] => none
  | x :: l => some (l.foldl Nat.max x)

/-- One row of the aggregate query's result set, as typed by sqlx: the
`balance` expression and `MAX(created_at)` are typed nullable. -/
structure BalanceRow where
  user_id : Nat
  balance : Option Rat
  last_updated : Option Nat
deriving DecidableEq, Repr

/-- The aggregate query of `get_account_balance` (lines 103-123):
`SELECT user_id, COALESCE(SUM(CASE ...), 0) as balance, MAX(created_at)
FROM transactions WHERE user_id = $1 GROUP BY user_id`, fetched with
`fetch_optional`: no group, no row. -/
def balanceQuery (s : Store) (uid : Nat) : Option BalanceRow :=
  match rowsFor s uid with
  | [] => none
  | rows =>
    some
      { user_id := uid
        balance := some ((sqlSum (rows.map caseSigned)).getD 0)
        last_updated := sqlMax (rows.map (fun t => t.created_at)) }

/-- Handler `get_account_balance` from `src/handlers/transaction.rs` (lines
97-139): a missing row becomes `404 "No transactions found"`; otherwise the
handler applies `unwrap_or(BigDecimal::from(0))` to the nullable balance
column. -/
def get_account_balance (s : Store) (uid : Nat) :
    Except Err AccountBalance :=
  match balanceQuery s uid with
  | none => .error ⟨404, "No transactions found"⟩
  | some row =>
    .ok
      { user_id := row.user_id
        balance := row.balance.getD 0
        last_updated := row.last_updated }

/-- The spec's balance formula, written from the spec's words (§3, §8):
`Σ(amount where kind=Credit) − Σ(amount where kind=Debit)` over all entries
for the account.  Used only to compare the code's aggregate against it. -/
def specBalance (s : Store) (uid : Nat) : Rat :=
  (((rowsFor s uid).filter
      (fun t => t.transaction_type == TransactionType.credit)).map
    (fun t => t.amount)).sum -
  (((rowsFor s uid).filter
      (fun t => t.transaction_type == TransactionType.debit)).map
    (fun t => t.amount)).sum

/-- Foreign-key invariant of reachable stores: every committed entry names
an existing user (the schema's `account_id ... must exist`). -/
def Store.Inv (s : Store) : Prop :=
  ∀ t ∈ s.transactions, t.user_id ∈ s.users

/-- Total signed contribution of one row: the value the `CASE` expression
takes, given that the kind enum is closed. -/
def signedVal (t : Transaction) : Rat :=
  match t.transaction_type with
  | .credit => t.amount
  | .debit => -t.amount

lemma caseSigned_eq_some (t : Transaction) :
    caseSigned t = some (signedVal t) := by
  unfold caseSigned signedVal
  cases t.transaction_type <;> rfl

lemma filterMap_caseSigned (l : List Transaction) :
    (l.map caseSigned).filterMap id = l.map signedVal := by
  induction l with
  | nil => rfl
  | cons a l ih =>
    simp [caseSigned_eq_some, ih]

lemma sqlSum_caseSigned (l : List Transaction) (h : l ≠ []) :
    sqlSum (l.map caseSigned) = some ((l.map signedVal).sum) := by
  cases l with
  | nil => exact absurd rfl h
  | cons a l =>
    unfold sqlSum
    rw [filterMap_caseSigned]
    rfl

lemma sqlMax_isSome (l : List Nat) (h : l ≠ []) : (sqlMax l).isSome := by
  cases l with
  | nil => exact absurd rfl h
  | cons a l => rfl

lemma sum_signedVal (l : List Transaction) :
    (l.map signedVal).sum =
      ((l.filter (fun t => t.transaction_type == TransactionType.credit)).map
        (fun t => t.amount)).sum -
      ((l.filter (fun t => t.transaction_type == TransactionType.debit)).map
        (fun t => t.amount)).sum := by
  induction l with
  | nil => simp
  | cons a l ih =>
    cases ha : a.transaction_type <;>
      simp [signedVal, ha, ih, List.filter_cons] <;> try ring

lemma specBalance_eq_sum (s : Store) (uid : Nat) :
    specBalance s uid = ((rowsFor s uid).map signedVal).sum := by
  rw [specBalance, sum_signedVal]

lemma balanceQuery_of_ne (s : Store) (uid : Nat) (h : rowsFor s uid ≠ []) :
    balanceQuery s uid =
      some
        { user_id := uid
          balance := some (((rowsFor s uid).map signedVal).sum)
          last_updated := sqlMax ((rowsFor s uid).map (fun t => t.created_at)) } := by
  unfold balanceQuery
  cases hr : rowsFor s uid with
  | nil => exact absurd hr h
  | cons a l =>
    have hne : a :: l ≠ ([] : List Transaction) := by simp
    dsimp only
    rw [sqlSum_caseSigned (a :: l) hne]
    rfl

lemma get_account_balance_of_ne (s : Store) (uid : Nat)
    (h : rowsFor s uid ≠ []) :
    get_account_balance s uid =
      .ok
        { user_id := uid
          balance := ((rowsFor s uid).map signedVal).sum
          last_updated := sqlMax ((rowsFor s uid).map (fun t => t.created_at)) } := by
  unfold get_account_balance
  rw [balanceQuery_of_ne s uid h]
  rfl

lemma get_account_balance_of_empty (s : Store) (uid : Nat)
    (h : rowsFor s uid = []) :
    get_account_balance s uid = .error ⟨404, "No transactions found"⟩ := by
  unfold get_account_balance balanceQuery
  rw [h]

lemma rowsFor_perm (s s' : Store) (uid : Nat)
    (h : s.transactions.Perm s'.transactions) :
    (rowsFor s uid).Perm (rowsFor s' uid) :=
  h.filter _

lemma create_transaction_ok (s : Store) (uid : Nat) (p : CreateTransaction)
    (s' : Store) (t : Transaction)
    (h : create_transaction s uid p = .ok (s', t)) :
    userExists s uid = true ∧
      s' = { s with
              transactions := s.transactions ++ [t]
              next_id := s.next_id + 1
              clock := s.clock + 1 } ∧
      t = { id := s.next_id
            user_id := uid
            amount := p.amount
            transaction_type := p.transaction_type
            description := p.description
            created_at := s.clock } := by
  unfold create_transaction at h
  cases hu : userExists s uid with
  | false => rw [hu] at h; simp at h
  | true =>
    rw [hu] at h
    simp only [if_true] at h
    unfold insertTransaction at h
    simp only [Except.ok.injEq, Prod.mk.injEq] at h
    obtain ⟨hs, ht⟩ := h
    exact ⟨rfl, by rw [← hs, ← ht], ht.symm⟩

lemma rowsFor_ne_of_ok (s : Store) (uid : Nat) (b : AccountBalance)
    (h : get_account_balance s uid = .ok b) : rowsFor s uid ≠ [] := by
  intro hr
  rw [get_account_balance_of_empty s uid hr] at h
  exact Except.noConfusion h

/-- A store holding one user (id 7) and no entries. -/
def emptyUserStore : Store := ⟨[7], [], 0, 0⟩

/-- A committed credit entry of 50 for user 7. -/
def demoEntry : Transaction := ⟨0, 7, 50, .credit, none, 0⟩

/-- A store holding user 7 with the single committed entry `demoEntry`. -/
def demoStore : Store := ⟨[7], [demoEntry], 1, 1⟩

/-- A store holding one user (id 1) and no entries, used to drive the
derived balance negative. -/
def overdraftStore : Store := ⟨[1], [], 0, 0⟩

/-- C1: whenever the balance operation succeeds, the returned balance is the
sum of the account's credit amounts minus the sum of its debit amounts, and
the value is independent of the order in which the entries were inserted
(any permutation of the committed entries yields the same balance). -/
theorem get_account_balance_correct (s : Store) (uid : Nat)
    (b : AccountBalance) (h : get_account_balance s uid = .ok b) :
    b.balance = specBalance s uid ∧
      ∀ s' : Store, s.transactions.Perm s'.transactions →
        ∃ b', get_account_balance s' uid = .ok b' ∧ b'.balance = b.balance := by
  have hne : rowsFor s uid ≠ [] := rowsFor_ne_of_ok s uid b h
  rw [get_account_balance_of_ne s uid hne] at h
  have hb : b =
      { user_id := uid
        balance := ((rowsFor s uid).map signedVal).sum
        last_updated := sqlMax ((rowsFor s uid).map (fun t => t.created_at)) } :=
    (Except.ok.inj h).symm
  constructor
  · rw [hb, specBalance_eq_sum]
  · intro s' hperm
    have hpr : (rowsFor s uid).Perm (rowsFor s' uid) :=
      rowsFor_perm s s' uid hperm
    have hne' : rowsFor s' uid ≠ [] := by
      intro hr'
      rw [hr'] at hpr
      exact hne hpr.eq_nil
    refine ⟨_, get_account_balance_of_ne s' uid hne', ?_⟩
    rw [hb]
    exact (List.Perm.sum_eq (hpr.map signedVal)).symm

/-- C1 witness: one credit of 50 for user 7 yields balance 50, equal to the
spec formula and stable under permutation of the entry list. -/
theorem get_account_balance_correct_witness :
    get_account_balance demoStore 7 = .ok ⟨7, 50, some 0⟩ ∧
      ((⟨7, 50, some 0⟩ : AccountBalance).balance = specBalance demoStore 7 ∧
        ∀ s' : Store, demoStore.transactions.Perm s'.transactions →
          ∃ b', get_account_balance s' 7 = .ok b' ∧
            b'.balance = (⟨7, 50, some 0⟩ : AccountBalance).balance) := by
  have hb : get_account_balance demoStore 7 = .ok ⟨7, 50, some 0⟩ := by
    simp [get_account_balance, balanceQuery, rowsFor, sqlSum, sqlMax,
      caseSigned, demoStore, demoEntry]
  exact ⟨hb, get_account_balance_correct demoStore 7 ⟨7, 50, some 0⟩ hb⟩

/-- C2 counterexample: a create request with amount 0 against an existing
account is not rejected as a validation error; the handler accepts it and a
row with amount 0 is committed. -/
theorem create_zero_amount_accepted :
    ∃ s' t,
      create_transaction emptyUserStore 7 ⟨0, .credit, none⟩ = .ok (s', t) ∧
        t ∈ s'.transactions ∧ t.amount = 0 := by
  refine ⟨⟨[7], [⟨0, 7, 0, .credit, none, 0⟩], 1, 1⟩,
    ⟨0, 7, 0, .credit, none, 0⟩, rfl, ?_, rfl⟩
  simp

/-- C2 amended: requests whose kind lies outside the closed enum are
rejected at the deserialization boundary (before the handler), but the
handler performs no amount validation at all: for any existing account a
request with amount zero or negative is accepted and its row is written
verbatim. -/
theorem create_no_amount_validation (s : Store) (uid : Nat)
    (p : CreateTransaction) (hu : uid ∈ s.users) (ha : p.amount ≤ 0) :
    ∃ s' t, create_transaction s uid p = .ok (s', t) ∧
      t ∈ s'.transactions ∧ t.amount = p.amount := by
  have h : userExists s uid = true := by
    unfold userExists
    exact List.elem_eq_true_of_mem hu
  refine ⟨(insertTransaction s uid p).1, (insertTransaction s uid p).2,
    ?_, ?_, rfl⟩
  · unfold create_transaction
    rw [h]
    rfl
  · simp [insertTransaction]

/-- C2 amended witness: a debit request of amount −5 for existing user 7 is
accepted and committed. -/
theorem create_no_amount_validation_witness :
    (7 ∈ emptyUserStore.users ∧
        (⟨-5, .debit, none⟩ : CreateTransaction).amount ≤ 0) ∧
      ∃ s' t,
        create_transaction emptyUserStore 7 ⟨-5, .debit, none⟩ = .ok (s', t) ∧
          t ∈ s'.transactions ∧
          t.amount = (⟨-5, .debit, none⟩ : CreateTransaction).amount := by
  refine ⟨⟨by decide, by decide⟩, ?_⟩
  exact create_no_amount_validation emptyUserStore 7 ⟨-5, .debit, none⟩
    (by decide) (by decide)

/-- C3: an account with zero committed entries gets a 404 "No transactions
found" from the balance operation, and never a zero-balance success. -/
theorem balance_empty_history_not_found (s : Store) (uid : Nat)
    (h : rowsFor s uid = []) :
    get_account_balance s uid = .error ⟨404, "No transactions found"⟩ ∧
      ∀ b : AccountBalance, get_account_balance s uid ≠ .ok b := by
  refine ⟨get_account_balance_of_empty s uid h, ?_⟩
  intro b hb
  rw [get_account_balance_of_empty s uid h] at hb
  exact Except.noConfusion hb

/-- C3 witness: user 7 exists but has no entries; the balance operation
fails with 404. -/
theorem balance_empty_history_not_found_witness :
    rowsFor emptyUserStore 7 = [] ∧
      (get_account_balance emptyUserStore 7 =
          .error ⟨404, "No transactions found"⟩ ∧
        ∀ b : AccountBalance, get_account_balance emptyUserStore 7 ≠ .ok b) :=
  ⟨rfl, balance_empty_history_not_found emptyUserStore 7 rfl⟩

/-- C4: creating an entry for an account id unknown to the users table
fails with 404 "User not found", nothing is written, and a list for that id
returns the empty sequence (given the foreign-key invariant). -/
theorem create_unknown_account_not_found (s : Store) (uid : Nat)
    (p : CreateTransaction) (hinv : s.Inv) (h : uid ∉ s.users) :
    create_transaction s uid p = .error ⟨404, "User not found"⟩ ∧
      get_transactions s uid = .ok [] := by
  have hu : userExists s uid = false := by
    unfold userExists
    cases hc : s.users.contains uid with
    | false => rfl
    | true => exact absurd (List.mem_of_elem_eq_true hc) h
  have hrows : rowsFor s uid = [] := by
    rw [rowsFor, List.filter_eq_nil_iff]
    intro t ht hbeq
    have heq : t.user_id = uid := by simpa using hbeq
    exact h (heq ▸ hinv t ht)
  constructor
  · unfold create_transaction
    rw [hu]
    rfl
  · unfold get_transactions
    rw [hrows, List.mergeSort_nil]

/-- C4 witness: user id 9 is unknown; the create is rejected with 404 and
the list for id 9 is empty. -/
theorem create_unknown_account_not_found_witness :
    (Store.Inv emptyUserStore ∧ 9 ∉ emptyUserStore.users) ∧
      (create_transaction emptyUserStore 9 ⟨50, .credit, none⟩ =
          .error ⟨404, "User not found"⟩ ∧
        get_transactions emptyUserStore 9 = .ok []) := by
  have hinv : Store.Inv emptyUserStore := by
    intro t ht
    simp [emptyUserStore] at ht
  have h9 : 9 ∉ emptyUserStore.users := by decide
  exact ⟨⟨hinv, h9⟩,
    create_unknown_account_not_found emptyUserStore 9 ⟨50, .credit, none⟩ hinv h9⟩

/-- C5: the ledger is append-only: a successful create leaves every
previously committed entry in place with all its fields unchanged — the new
transaction list is exactly the old list with the single new row appended.
The two read operations are functions of the store and return no store, so
they cannot alter entries by construction. -/
theorem ledger_append_only (s : Store) (uid : Nat) (p : CreateTransaction)
    (s' : Store) (t : Transaction)
    (h : create_transaction s uid p = .ok (s', t)) :
    s'.transactions = s.transactions ++ [t] ∧
      ∀ t0 ∈ s.transactions, t0 ∈ s'.transactions := by
  obtain ⟨-, hs, -⟩ := create_transaction_ok s uid p s' t h
  subst hs
  refine ⟨rfl, ?_⟩
  intro t0 ht0
  simp [ht0]

/-- C5 witness: creating one credit on top of the existing entry of
`demoStore` appends it and keeps the old entry intact. -/
theorem ledger_append_only_witness :
    create_transaction demoStore 7 ⟨25, .credit, none⟩ =
        .ok (⟨[7], [demoEntry, ⟨1, 7, 25, .credit, none, 1⟩], 2, 2⟩,
          ⟨1, 7, 25, .credit, none, 1⟩) ∧
      ((⟨[7], [demoEntry, ⟨1, 7, 25, .credit, none, 1⟩], 2, 2⟩ :
            Store).transactions =
          demoStore.transactions ++ [⟨1, 7, 25, .credit, none, 1⟩] ∧
        ∀ t0 ∈ demoStore.transactions,
          t0 ∈ (⟨[7], [demoEntry, ⟨1, 7, 25, .credit, none, 1⟩], 2, 2⟩ :
            Store).transactions) :=
  ⟨rfl, ledger_append_only demoStore 7 ⟨25, .credit, none⟩ _ _ rfl⟩

/-- C6: round-trip — an entry successfully created for an account appears
in the subsequent list for that account, with the amount, kind, and
description submitted in the request. -/
theorem create_list_roundtrip (s : Store) (uid : Nat) (p : CreateTransaction)
    (s' : Store) (t : Transaction)
    (h : create_transaction s uid p = .ok (s', t)) :
    ∃ l, get_transactions s' uid = .ok l ∧ t ∈ l ∧
      t.amount = p.amount ∧ t.transaction_type = p.transaction_type ∧
      t.description = p.description := by
  obtain ⟨-, hs, ht⟩ := create_transaction_ok s uid p s' t h
  refine ⟨_, rfl, ?_, ?_, ?_, ?_⟩
  · rw [List.mem_mergeSort]
    subst hs
    unfold rowsFor
    rw [List.mem_filter]
    refine ⟨?_, ?_⟩
    · simp
    · rw [ht]
      simp
  · rw [ht]
  · rw [ht]
  · rw [ht]

/-- C6 witness: a debit of 25 created for user 7 appears in the subsequent
list with the submitted amount, kind, and description. -/
theorem create_list_roundtrip_witness :
    create_transaction demoStore 7 ⟨25, .debit, some "lunch"⟩ =
        .ok (⟨[7], [demoEntry, ⟨1, 7, 25, .debit, some "lunch", 1⟩], 2, 2⟩,
          ⟨1, 7, 25, .debit, some "lunch", 1⟩) ∧
      ∃ l,
        get_transactions
            (⟨[7], [demoEntry, ⟨1, 7, 25, .debit, some "lunch", 1⟩], 2, 2⟩ :
              Store) 7 = .ok l ∧
          (⟨1, 7, 25, .debit, some "lunch", 1⟩ : Transaction) ∈ l ∧
          (⟨1, 7, 25, .debit, some "lunch", 1⟩ : Transaction).amount =
            (⟨25, .debit, some "lunch"⟩ : CreateTransaction).amount ∧
          (⟨1, 7, 25, .debit, some "lunch", 1⟩ :
              Transaction).transaction_type =
            (⟨25, .debit, some "lunch"⟩ : CreateTransaction).transaction_type ∧
          (⟨1, 7, 25, .debit, some "lunch", 1⟩ : Transaction).description =
            (⟨25, .debit, some "lunch"⟩ : CreateTransaction).description :=
  ⟨rfl, create_list_roundtrip demoStore 7 ⟨25, .debit, some "lunch"⟩ _ _ rfl⟩

/-- C7: the list operation returns exactly the entries committed for the
account (a permutation of the account's rows) ordered by `created_at`
descending, newest first. -/
theorem list_newest_first_complete (s : Store) (uid : Nat)
    (l : List Transaction) (h : get_transactions s uid = .ok l) :
    l.Perm (rowsFor s uid) ∧
      List.Pairwise (fun a b => b.created_at ≤ a.created_at) l := by
  have hl : l = (rowsFor s uid).mergeSort
      (fun a b => decide (b.created_at ≤ a.created_at)) :=
    (Except.ok.inj h).symm
  subst hl
  refine ⟨List.mergeSort_perm _ _, ?_⟩
  have htrans : ∀ a b c : Transaction,
      decide (b.created_at ≤ a.created_at) = true →
      decide (c.created_at ≤ b.created_at) = true →
      decide (c.created_at ≤ a.created_at) = true := by
    intro a b c hab hbc
    simp only [decide_eq_true_eq] at hab hbc ⊢
    exact le_trans hbc hab
  have htotal : ∀ a b : Transaction,
      (decide (b.created_at ≤ a.created_at) ||
        decide (a.created_at ≤ b.created_at)) = true := by
    intro a b
    simp only [Bool.or_eq_true, decide_eq_true_eq]
    exact Nat.le_total b.created_at a.created_at
  have hp := @List.sorted_mergeSort Transaction
    (fun a b => decide (b.created_at ≤ a.created_at)) htrans htotal
    (rowsFor s uid)
  exact hp.imp (fun hx => of_decide_eq_true hx)

/-- C7 witness: for `demoStore` the list for user 7 is exactly its one
committed entry, trivially sorted newest-first. -/
theorem list_newest_first_complete_witness :
    get_transactions demoStore 7 = .ok [demoEntry] ∧
      ([demoEntry].Perm (rowsFor demoStore 7) ∧
        List.Pairwise (fun a b => b.created_at ≤ a.created_at) [demoEntry]) := by
  have h : get_transactions demoStore 7 = .ok [demoEntry] := by
    simp [get_transactions, rowsFor, demoStore, demoEntry]
  exact ⟨h, list_newest_first_complete demoStore 7 [demoEntry] h⟩

/-- C8: no overdraft or balance-floor check exists on the write path: any
entry (in particular any debit) for an existing account is accepted
whatever the derived balance is, and a sequence of accepted entries drives
the balance returned by the balance operation strictly negative. -/
theorem no_overdraft_enforcement (s : Store) (uid : Nat)
    (p : CreateTransaction) (h : uid ∈ s.users) :
    (∃ s' t, create_transaction s uid p = .ok (s', t)) ∧
      ∃ s' t b,
        create_transaction overdraftStore 1 ⟨50, .debit, none⟩ = .ok (s', t) ∧
          get_account_balance s' 1 = .ok b ∧ b.balance < 0 := by
  constructor
  · have hu : userExists s uid = true := by
      unfold userExists
      exact List.elem_eq_true_of_mem h
    refine ⟨(insertTransaction s uid p).1, (insertTransaction s uid p).2, ?_⟩
    unfold create_transaction
    rw [hu]
    rfl
  · refine ⟨⟨[1], [⟨0, 1, 50, .debit, none, 0⟩], 1, 1⟩,
      ⟨0, 1, 50, .debit, none, 0⟩, ⟨1, -50, some 0⟩, rfl, ?_, by norm_num⟩
    simp [get_account_balance, balanceQuery, rowsFor, sqlSum, sqlMax,
      caseSigned]

/-- C8 witness: user 1 exists in `overdraftStore`; a debit is accepted and
the resulting balance is −50 < 0. -/
theorem no_overdraft_enforcement_witness :
    1 ∈ overdraftStore.users ∧
      ((∃ s' t,
          create_transaction overdraftStore 1 ⟨20, .debit, none⟩ =
            .ok (s', t)) ∧
        ∃ s' t b,
          create_transaction overdraftStore 1 ⟨50, .debit, none⟩ =
              .ok (s', t) ∧
            get_account_balance s' 1 = .ok b ∧ b.balance < 0) :=
  ⟨by decide,
    no_overdraft_enforcement overdraftStore 1 ⟨20, .debit, none⟩ (by decide)⟩

/-- C9: whenever the balance operation succeeds, `last_updated` is `some`,
the aggregate row's nullable balance column is `some`, and the
pre-`COALESCE` SQL sum itself is non-NULL and is exactly the balance
returned — so neither the `COALESCE` zero nor the `unwrap_or` zero is ever
the value actually returned. -/
theorem balance_ok_no_fallback (s : Store) (uid : Nat) (b : AccountBalance)
    (h : get_account_balance s uid = .ok b) :
    b.last_updated.isSome = true ∧
      (∃ row, balanceQuery s uid = some row ∧ row.balance.isSome = true) ∧
      sqlSum ((rowsFor s uid).map caseSigned) = some b.balance := by
  have hne : rowsFor s uid ≠ [] := rowsFor_ne_of_ok s uid b h
  rw [get_account_balance_of_ne s uid hne] at h
  have hb : b =
      { user_id := uid
        balance := ((rowsFor s uid).map signedVal).sum
        last_updated := sqlMax ((rowsFor s uid).map (fun t => t.created_at)) } :=
    (Except.ok.inj h).symm
  refine ⟨?_, ?_, ?_⟩
  · rw [hb]
    apply sqlMax_isSome
    intro hm
    exact hne (List.map_eq_nil_iff.mp hm)
  · exact ⟨_, balanceQuery_of_ne s uid hne, rfl⟩
  · rw [hb]
    exact sqlSum_caseSigned (rowsFor s uid) hne

/-- C9 witness: the single-credit store returns balance 50 with
`last_updated = some 0`; no fallback zero is involved. -/
theorem balance_ok_no_fallback_witness :
    get_account_balance demoStore 7 = .ok ⟨7, 50, some 0⟩ ∧
      ((⟨7, 50, some 0⟩ : AccountBalance).last_updated.isSome = true ∧
        (∃ row, balanceQuery demoStore 7 = some row ∧
          row.balance.isSome = true) ∧
        sqlSum ((rowsFor demoStore 7).map caseSigned) =
          some (⟨7, 50, some 0⟩ : AccountBalance).balance) := by
  have hb : get_account_balance demoStore 7 = .ok ⟨7, 50, some 0⟩ := by
    simp [get_account_balance, balanceQuery, rowsFor, sqlSum, sqlMax,
      caseSigned, demoStore, demoEntry]
  exact ⟨hb, balance_ok_no_fallback demoStore 7 ⟨7, 50, some 0⟩ hb⟩

/-- C10: the list operation never fails in the modelled (storage-available)
semantics — in particular it never returns a 404: every account id,
including one with no entries, gets a (possibly empty) success, whereas the
balance operation maps the same empty history to a 404. -/
theorem list_never_not_found (s : Store) (uid : Nat) :
    (∃ l, get_transactions s uid = .ok l) ∧
      (∀ e : Err, get_transactions s uid ≠ .error e) ∧
      (rowsFor s uid = [] →
        get_transactions s uid = .ok [] ∧
          get_account_balance s uid =
            .error ⟨404, "No transactions found"⟩) := by
  refine ⟨⟨_, rfl⟩, ?_, ?_⟩
  · intro e he
    unfold get_transactions at he
    exact Except.noConfusion he
  · intro hr
    refine ⟨?_, get_account_balance_of_empty s uid hr⟩
    unfold get_transactions
    rw [hr, List.mergeSort_nil]

/-- C10 witness: id 9 is unknown and has no entries, yet the list succeeds
(with the empty sequence) while the balance operation returns 404. -/
theorem list_never_not_found_witness :
    (∃ l, get_transactions emptyUserStore 9 = .ok l) ∧
      (∀ e : Err, get_transactions emptyUserStore 9 ≠ .error e) ∧
      (rowsFor emptyUserStore 9 = [] →
        get_transactions emptyUserStore 9 = .ok [] ∧
          get_account_balance emptyUserStore 9 =
            .error ⟨404, "No transactions found"⟩) :=
  list_never_not_found emptyUserStore 9

end Dodo
